import Mathlib

/-!
Verification of the gumble Mumble-client connection engine.

The definitions below are a shallow embedding of `gumble/client.go` and
`gumble/config.go`: Go `uint32` values are modelled as `Nat` (with explicit
bounds where overflow matters), `time.Time`/`time.Duration` as `Int`
(nanoseconds; the zero `time.Time` is `0`, matching `Time.IsZero`), Go `nil`
pointers as `Option`, and the nondeterministic outcomes of concurrent
activities (the TLS dial, the `select` race between the deadline timer and
the `connect` channel) as explicit environment inputs.
-/

/-! ## Semantic-version packing (`packSemver`, client.go lines 28-35) -/

/-- Character list with leading whitespace removed, as `fmt.Sscanf`'s `%d`
verb does before reading digits. -/
def skipSpaces : List Char → List Char
  | [] => []
  | c :: cs =>
    if c = ' ' ∨ c = '\t' ∨ c = '\n' ∨ c = '\r' then skipSpaces cs else c :: cs

/-- Split a character list into its maximal leading run of decimal digits
and the remainder. -/
def takeDigits : List Char → List Char × List Char
  | [] => ([], [])
  | c :: cs =>
    if c.isDigit then
      let p := takeDigits cs
      (c :: p.1, p.2)
    else ([], c :: cs)

/-- Numeric value of a list of decimal digit characters (most significant
first). -/
def digitsVal (ds : List Char) : Nat :=
  ds.foldl (fun a c => a * 10 + (c.toNat - 48)) 0

/-- One `%d` conversion of `fmt.Sscanf` reading into a `uint32` target:
skip leading whitespace, read a nonempty digit run, fail when the value
does not fit in 32 bits (Go reports an out-of-range error). Returns the
value and the unconsumed input. -/
def scanUint32 (cs : List Char) : Option (Nat × List Char) :=
  let cs := skipSpaces cs
  match takeDigits cs with
  | ([], _) => none
  | (ds, rest) =>
    let v := digitsVal ds
    if v < 2 ^ 32 then some (v, rest) else none

/-- The literal `.` of the format string `"%d.%d.%d"`: the next input
character must be a dot. -/
def expectDot : List Char → Option (List Char)
  | '.' :: rest => some rest
  | _ => none

/-- `fmt.Sscanf(s, "%d.%d.%d", &maj, &min, &pat)` with `uint32` targets
(client.go line 30): three scanned values on success (`n = 3, err = nil`),
`none` when scanning stops early or a value is out of range. Input after
the third number is ignored, as `Sscanf` does not require consuming the
whole string. -/
def sscanfSemver (s : String) : Option (Nat × Nat × Nat) := do
  let (maj, cs) ← scanUint32 s.data
  let cs ← expectDot cs
  let (mi, cs) ← scanUint32 cs
  let cs ← expectDot cs
  let (pat, _) ← scanUint32 cs
  pure (maj, mi, pat)

/-- `packSemver` (client.go lines 28-35): turn `"MAJOR.MINOR.PATCH"` into
the `uint32` used in Mumble's Version message, rejecting scan failures and
components out of bounds (`maj > 0xFFFF`, `min > 0xFF`, `pat > 0xFF`).
`none` models the non-nil `error` return. -/
def packSemver (s : String) : Option Nat :=
  match sscanfSemver s with
  | none => none
  | some (maj, mi, pat) =>
    if maj > 0xFFFF ∨ mi > 0xFF ∨ pat > 0xFF then none
    else some ((maj <<< 16) ||| (mi <<< 8) ||| pat)

/-! ## Connection state (client.go lines 37-52, 217-219) -/

/-- `State` (client.go lines 37-52): the current state of the client's
connection to the server. The `iota` values are 0, 1, 2. -/
inductive State where
  | StateDisconnected
  | StateConnected
  | StateSynced
deriving DecidableEq, Repr

/-- The `uint32` representation of a `State`, as stored in the atomic
`Client.state` field (`iota` order: Disconnected = 0, Connected = 1,
Synced = 2). -/
def State.toUint32 : State → Nat
  | .StateDisconnected => 0
  | .StateConnected => 1
  | .StateSynced => 2

/-- The Go conversion `State(w)` applied to a stored state word. Every
value ever stored in `Client.state` is `uint32(s)` for some `State s`, so
the conversion is only ever applied to 0, 1 or 2. -/
def stateOfUint32 (w : Nat) : State :=
  if w = 0 then .StateDisconnected
  else if w = 1 then .StateConnected
  else .StateSynced

/-- `Client.State` (client.go lines 217-219): returns
`State(atomic.LoadUint32(&c.state))` — the stored state word converted
back to `State`, with no further adjustment. -/
def Client.StateAccessor (stateWord : Nat) : State :=
  stateOfUint32 stateWord

/-- `ClientVersion` (client.go line 55): the protocol version the client
implements, `1<<16 | 3<<8 | 0`. -/
def ClientVersion : Nat := (1 <<< 16) ||| (3 <<< 8) ||| 0

/-! ## Arithmetic facts about packing -/

/-- Shifted-or with a small addend is addition: for `b < 2^n`,
`(a <<< n) ||| b = a * 2^n + b`. -/
theorem shiftLeft_lor_eq_add : ∀ (n a b : Nat), b < 2 ^ n →
    (a <<< n) ||| b = a * 2 ^ n + b := by
  intro n
  induction n with
  | zero =>
    intro a b hb
    interval_cases b
    simp [Nat.shiftLeft_eq]
  | succ n ih =>
    intro a b hb
    have hdecomp : Nat.bit b.bodd b.div2 = b := Nat.bit_decomp b
    have hbitval : Nat.bit b.bodd b.div2 = 2 * b.div2 + b.bodd.toNat := Nat.bit_val _ _
    have hdiv2 : b.div2 = b / 2 := Nat.div2_val b
    have htn : b.bodd.toNat < 2 := Bool.toNat_lt _
    have hdiv2lt : b.div2 < 2 ^ n := by
      have hp : (2:Nat) ^ (n + 1) = 2 * 2 ^ n := by ring
      omega
    have hshift : a <<< (n + 1) = Nat.bit false (a <<< n) := by
      rw [Nat.bit_val]
      simp [Nat.shiftLeft_eq, Nat.pow_succ]
      ring
    rw [← hdecomp, hshift, Nat.lor_bit]
    simp only [Bool.false_or]
    rw [Nat.bit_val, Nat.bit_val, ih _ _ hdiv2lt]
    simp [Nat.shiftLeft_eq, Nat.pow_succ]
    ring

/-- The packed word of a bounded triple, written with shifts and ors as in
the source, equals its positional value. -/
theorem packedWord_eq (maj mi pat : Nat) (hmi : mi ≤ 0xFF) (hpat : pat ≤ 0xFF) :
    (maj <<< 16) ||| (mi <<< 8) ||| pat = maj * 2 ^ 16 + mi * 2 ^ 8 + pat := by
  have h1 : (mi <<< 8) ||| pat = mi * 2 ^ 8 + pat :=
    shiftLeft_lor_eq_add 8 mi pat (by omega)
  have h2 : mi * 2 ^ 8 + pat < 2 ^ 16 := by omega
  rw [Nat.lor_assoc, h1, shiftLeft_lor_eq_add 16 maj _ h2]
  omega

/-! ## Scanning lemmas -/

/-- `skipSpaces` leaves a list starting with a digit unchanged. -/
theorem skipSpaces_cons_digit (c : Char) (cs : List Char) (h : c.isDigit) :
    skipSpaces (c :: cs) = c :: cs := by
  unfold skipSpaces
  have hne : ¬(c = ' ' ∨ c = '\t' ∨ c = '\n' ∨ c = '\r') := by
    rintro (rfl | rfl | rfl | rfl) <;> exact absurd h (by decide)
  simp [hne]

/-- `takeDigits` consumes exactly an all-digit block followed by a dot. -/
theorem takeDigits_append_dot (ds rest : List Char) (h : ∀ c ∈ ds, c.isDigit) :
    takeDigits (ds ++ '.' :: rest) = (ds, '.' :: rest) := by
  induction ds with
  | nil => simp [takeDigits]
  | cons c cs ih =>
    have hc : c.isDigit := h c (List.mem_cons_self c cs)
    have hcs : ∀ x ∈ cs, x.isDigit := fun x hx => h x (List.mem_cons_of_mem c hx)
    simp [takeDigits, hc, ih hcs]

/-- `takeDigits` consumes an all-digit list entirely. -/
theorem takeDigits_all (ds : List Char) (h : ∀ c ∈ ds, c.isDigit) :
    takeDigits ds = (ds, []) := by
  induction ds with
  | nil => simp [takeDigits]
  | cons c cs ih =>
    have hc : c.isDigit := h c (List.mem_cons_self c cs)
    have hcs : ∀ x ∈ cs, x.isDigit := fun x hx => h x (List.mem_cons_of_mem c hx)
    simp [takeDigits, hc, ih hcs]

/-- `scanUint32` on a nonempty digit block (with remainder whose
`takeDigits` split is already known) yields the block's value. -/
theorem scanUint32_parse (ds rest : List Char) (hne : ds ≠ [])
    (h : ∀ c ∈ ds, c.isDigit) (hv : digitsVal ds < 2 ^ 32)
    (htd : takeDigits (ds ++ rest) = (ds, rest)) :
    scanUint32 (ds ++ rest) = some (digitsVal ds, rest) := by
  cases ds with
  | nil => exact absurd rfl hne
  | cons c cs =>
    have hc : c.isDigit := h c (List.mem_cons_self c cs)
    have hskip : skipSpaces ((c :: cs) ++ rest) = (c :: cs) ++ rest := by
      rw [List.cons_append]
      exact skipSpaces_cons_digit c _ hc
    simp only [scanUint32, hskip, htd]
    simp
    simpa using hv

/-- `sscanfSemver` on a well-formed `"MAJOR.MINOR.PATCH"` string returns
the three component values. -/
theorem sscanfSemver_parse (ds1 ds2 ds3 : List Char)
    (h1 : ds1 ≠ []) (hd1 : ∀ c ∈ ds1, c.isDigit) (hv1 : digitsVal ds1 < 2 ^ 32)
    (h2 : ds2 ≠ []) (hd2 : ∀ c ∈ ds2, c.isDigit) (hv2 : digitsVal ds2 < 2 ^ 32)
    (h3 : ds3 ≠ []) (hd3 : ∀ c ∈ ds3, c.isDigit) (hv3 : digitsVal ds3 < 2 ^ 32) :
    sscanfSemver (String.mk (ds1 ++ '.' :: (ds2 ++ '.' :: ds3))) =
      some (digitsVal ds1, digitsVal ds2, digitsVal ds3) := by
  have e1 : scanUint32 (ds1 ++ '.' :: (ds2 ++ '.' :: ds3)) =
      some (digitsVal ds1, '.' :: (ds2 ++ '.' :: ds3)) :=
    scanUint32_parse _ _ h1 hd1 hv1 (takeDigits_append_dot _ _ hd1)
  have e2 : scanUint32 (ds2 ++ '.' :: ds3) = some (digitsVal ds2, '.' :: ds3) :=
    scanUint32_parse _ _ h2 hd2 hv2 (takeDigits_append_dot _ _ hd2)
  have e3 : scanUint32 ds3 = some (digitsVal ds3, []) := by
    have h := scanUint32_parse ds3 [] h3 hd3 hv3
      (by simpa using takeDigits_all ds3 hd3)
    simpa using h
  simp [sscanfSemver, e1, e2, e3, expectDot]

/-- C4: for every string of the form MAJOR.MINOR.PATCH with major ≤ 65535,
minor ≤ 255, patch ≤ 255, `packSemver` returns
`major<<16 ||| minor<<8 ||| patch` without error; unpacking that word with
`>>> 16`, `(>>> 8) &&& 0xFF` and `&&& 0xFF` recovers the original triple;
and `packSemver "1.3.0" = 0x00010300`. -/
theorem C4_packSemver_roundtrip (ds1 ds2 ds3 : List Char)
    (h1 : ds1 ≠ []) (hd1 : ∀ c ∈ ds1, c.isDigit)
    (h2 : ds2 ≠ []) (hd2 : ∀ c ∈ ds2, c.isDigit)
    (h3 : ds3 ≠ []) (hd3 : ∀ c ∈ ds3, c.isDigit)
    (hmaj : digitsVal ds1 ≤ 65535) (hmi : digitsVal ds2 ≤ 255)
    (hpat : digitsVal ds3 ≤ 255) :
    packSemver (String.mk (ds1 ++ '.' :: (ds2 ++ '.' :: ds3))) =
      some ((digitsVal ds1 <<< 16) ||| (digitsVal ds2 <<< 8) ||| digitsVal ds3) ∧
    ((digitsVal ds1 <<< 16) ||| (digitsVal ds2 <<< 8) ||| digitsVal ds3) >>> 16 =
      digitsVal ds1 ∧
    (((digitsVal ds1 <<< 16) ||| (digitsVal ds2 <<< 8) ||| digitsVal ds3) >>> 8) &&& 0xFF =
      digitsVal ds2 ∧
    ((digitsVal ds1 <<< 16) ||| (digitsVal ds2 <<< 8) ||| digitsVal ds3) &&& 0xFF =
      digitsVal ds3 ∧
    packSemver "1.3.0" = some 0x00010300 := by
  have hv1 : digitsVal ds1 < 2 ^ 32 := lt_of_le_of_lt hmaj (by norm_num)
  have hv2 : digitsVal ds2 < 2 ^ 32 := lt_of_le_of_lt hmi (by norm_num)
  have hv3 : digitsVal ds3 < 2 ^ 32 := lt_of_le_of_lt hpat (by norm_num)
  have hparse := sscanfSemver_parse ds1 ds2 ds3 h1 hd1 hv1 h2 hd2 hv2 h3 hd3 hv3
  have hw : (digitsVal ds1 <<< 16) ||| (digitsVal ds2 <<< 8) ||| digitsVal ds3 =
      digitsVal ds1 * 2 ^ 16 + digitsVal ds2 * 2 ^ 8 + digitsVal ds3 :=
    packedWord_eq _ _ _ hmi hpat
  have h16 : (2 : Nat) ^ 16 = 65536 := by norm_num
  have h8 : (2 : Nat) ^ 8 = 256 := by norm_num
  have h255 : (0xFF : Nat) = 2 ^ 8 - 1 := by norm_num
  refine ⟨?_, ?_, ?_, ?_, ?_⟩
  · have hcond : ¬(digitsVal ds1 > 0xFFFF ∨ digitsVal ds2 > 0xFF ∨
        digitsVal ds3 > 0xFF) := by
      push_neg
      refine ⟨by omega, by omega, by omega⟩
    simp [packSemver, hparse, hcond]
  · rw [hw, Nat.shiftRight_eq_div_pow, h16, h8]
    omega
  · rw [hw, Nat.shiftRight_eq_div_pow, h255, Nat.and_pow_two_sub_one_eq_mod, h16, h8]
    omega
  · rw [hw, h255, Nat.and_pow_two_sub_one_eq_mod, h16, h8]
    omega
  · decide

/-- Witness for C4: the triple (1, 3, 0). -/
theorem C4_packSemver_roundtrip_witness :
    packSemver "1.3.0" = some 66304 ∧
    (66304 : Nat) >>> 16 = 1 ∧
    ((66304 : Nat) >>> 8) &&& 0xFF = 3 ∧
    (66304 : Nat) &&& 0xFF = 0 ∧
    packSemver "1.3.0" = some 0x00010300 :=
  C4_packSemver_roundtrip ['1'] ['3'] ['0'] (by decide) (by decide) (by decide)
    (by decide) (by decide) (by decide) (by decide) (by decide) (by decide)

/-! ## Configuration (config.go) and the Handshake Builder
(client.go lines 139-181) -/

/-- `VersionOverride` (config.go lines 9-16): controls the initial Version
message. Empty strings and a nil `VersionUint32` mean "use the default". -/
structure VersionOverride where
  Release : String
  OS : String
  OSVersion : String
  Semver : String
  VersionUint32 : Option Nat
deriving DecidableEq, Repr

/-- `Config` (config.go lines 20-43), restricted to the fields the
connection engine reads: username, password, version override, tokens.
(The audio/listener fields are consumed only by external collaborators.) -/
structure Config where
  Username : String
  Password : String
  VersionOverride : Option VersionOverride
  Tokens : List String
deriving DecidableEq, Repr

/-- The `MumbleProto.Version` message as populated by `DialWithDialer`
(client.go lines 166-171). -/
structure VersionPacket where
  Version : Nat
  Release : String
  Os : String
  OsVersion : String
deriving DecidableEq, Repr

/-- The `MumbleProto.Authenticate` message as populated by
`DialWithDialer` (client.go lines 173-178). -/
structure AuthenticatePacket where
  Username : String
  Password : String
  Opus : Bool
  Tokens : List String
deriving DecidableEq, Repr

/-- The Version-packet construction of `DialWithDialer` (client.go lines
139-171): defaults `"gumble"`/`runtime.GOOS`/`runtime.GOARCH`/
`ClientVersion` (the host values are parameters `goos`, `goarch`), each
field overridden independently when the override supplies it; the version
word prefers `VersionUint32` verbatim, else a parsable non-empty `Semver`,
else the compiled-in `ClientVersion`. The config pointer may be nil
(`none`): the lookup is guarded by `client.Config != nil`. -/
def buildVersionPacket (goos goarch : String) (config : Option Config) :
    VersionPacket :=
  let release := "gumble"
  let osStr := goos
  let osVer := goarch
  let verU32 := ClientVersion
  match config with
  | none => ⟨verU32, release, osStr, osVer⟩
  | some cfg =>
    match cfg.VersionOverride with
    | none => ⟨verU32, release, osStr, osVer⟩
    | some vo =>
      let release := if vo.Release ≠ "" then vo.Release else release
      let osStr := if vo.OS ≠ "" then vo.OS else osStr
      let osVer := if vo.OSVersion ≠ "" then vo.OSVersion else osVer
      let verU32 :=
        match vo.VersionUint32 with
        | some v => v
        | none =>
          if vo.Semver ≠ "" then
            match packSemver vo.Semver with
            | some packed => packed
            | none => verU32
          else verU32
      ⟨verU32, release, osStr, osVer⟩

/-- The Authenticate-packet construction of `DialWithDialer` (client.go
lines 173-178). It dereferences `client.Config` unconditionally
(`&client.Config.Username`): with a nil config the Go code panics, which
the model reports as `none`. `opusAvail` is the result of the
`getAudioCodec(audioCodecIDOpus) != nil` registry lookup (an external
collaborator). -/
def buildAuthenticatePacket (config : Option Config) (opusAvail : Bool) :
    Option AuthenticatePacket :=
  match config with
  | none => none
  | some cfg => some ⟨cfg.Username, cfg.Password, opusAvail, cfg.Tokens⟩

/-! ## Connection orchestration (`DialWithDialer`, client.go lines 115-215)

Times are `Int` nanoseconds; the zero `time.Time` is `0` (`Time.IsZero`).
The nondeterminism of the concurrent execution — whether the TLS dial
fails, and which arm of the final `select` fires — is an explicit
environment input. -/

/-- The fields of `net.Dialer` that `DialWithDialer` reads: `Timeout`
(a `time.Duration`; `> 0` means set) and `Deadline` (a `time.Time`;
non-zero means set). -/
structure Dialer where
  Timeout : Int
  Deadline : Int
deriving DecidableEq, Repr

/-- Modelled from the spec: the Rejection Result (`*RejectError`, not part
of the sampled source) — "a terminal handshake outcome carrying a reason
code and human-readable text". -/
structure RejectError where
  RejectType : Nat
  Reason : String
deriving DecidableEq, Repr

/-- The errors `DialWithDialer` can return: the TLS dial error (line 120),
the `"gumble: synchronization timeout"` error (line 207), and a
`*RejectError` received from the read loop (line 211). Distinct
constructors model the distinct Go error types. -/
inductive GErr where
  | dialFailure (msg : String)
  | timeoutFailure
  | rejection (r : RejectError)
deriving DecidableEq, Repr

/-- The value received on the `connect` channel (`chan *RejectError`):
`nil` signals successful sync, non-nil a rejection. -/
inductive ConnectSignal where
  | reject (r : RejectError)
  | success
deriving DecidableEq, Repr

/-- Which arm of the `select` at client.go lines 204-214 fires first:
the deadline timer, or a value on the `connect` channel. -/
inductive RaceOutcome where
  | timerFired
  | connected (s : ConnectSignal)
deriving DecidableEq, Repr

/-- The environment of one `DialWithDialer` call: whether the TLS dial
fails (and its error text), the host `runtime.GOOS`/`runtime.GOARCH`,
the codec-registry lookup result, the call start time (`time.Now()`,
always positive), and the `select` race outcome. -/
structure DialEnv where
  dialErr : Option String
  goos : String
  goarch : String
  opusAvailable : Bool
  start : Int
  race : RaceOutcome
deriving DecidableEq, Repr

/-- The effective-deadline computation of client.go lines 185-202: start
from the zero time, take the dialer's absolute `Deadline` when non-zero,
then replace it by `start + Timeout` when `Timeout > 0` and that is
earlier (or no deadline was set). The result `0` (zero time) means no
timer is armed and the `select` waits on `connect` alone. -/
def computeDeadline (dialer : Dialer) (start : Int) : Int :=
  let deadline : Int := 0
  let deadline := if dialer.Deadline ≠ 0 then dialer.Deadline else deadline
  let deadline :=
    if dialer.Timeout > 0 then
      let diff := start + dialer.Timeout
      if deadline = 0 ∨ diff < deadline then diff else deadline
    else deadline
  deadline

/-- Whether the timeout channel of the `select` is non-nil, i.e. a timer
was armed (client.go lines 197-201). -/
def timerArmed (dialer : Dialer) (start : Int) : Bool :=
  computeDeadline dialer start ≠ 0

/-- A race outcome is realizable only if the timer arm actually exists:
receiving from a nil channel blocks forever, so `timerFired` requires an
armed timer. -/
def raceValid (dialer : Dialer) (start : Int) : RaceOutcome → Prop
  | .timerFired => timerArmed dialer start = true
  | .connected _ => True

/-- A handshake message written to the transport by `WriteProto`
(client.go lines 180-181), in order. -/
inductive SentMsg where
  | version (p : VersionPacket)
  | authenticate (p : AuthenticatePacket)
deriving DecidableEq, Repr

/-- Observable result of one `DialWithDialer` call: whether a non-nil
client was returned, the returned error, whether the transport was
opened/closed, which background loops were started, the handshake
messages written (in write order), and whether the call panicked
(nil-pointer dereference). -/
structure DialResult where
  clientReturned : Bool
  error : Option GErr
  connOpened : Bool
  connClosed : Bool
  readLoopStarted : Bool
  pingLoopStarted : Bool
  sentMessages : List SentMsg
  panicked : Bool
  timerWasArmed : Bool
deriving DecidableEq, Repr

/-- `DialWithDialer` (client.go lines 115-215), step for step: TLS dial
(line 118, fatal on error); client creation with `state = StateConnected`
(line 131) and `readRoutine` start (line 137); Version-packet construction
(lines 139-171); Authenticate-packet construction (lines 173-178, panics
on nil config); both writes (lines 180-181); `pingRoutine` start (line
183); deadline computation (lines 185-202); and the final `select` (lines
204-214). -/
def DialWithDialer (dialer : Dialer) (config : Option Config) (env : DialEnv) :
    DialResult :=
  match env.dialErr with
  | some msg =>
    { clientReturned := false, error := some (.dialFailure msg),
      connOpened := false, connClosed := false,
      readLoopStarted := false, pingLoopStarted := false,
      sentMessages := [], panicked := false, timerWasArmed := false }
  | none =>
    let versionPacket := buildVersionPacket env.goos env.goarch config
    match buildAuthenticatePacket config env.opusAvailable with
    | none =>
      { clientReturned := false, error := none,
        connOpened := true, connClosed := false,
        readLoopStarted := true, pingLoopStarted := false,
        sentMessages := [], panicked := true, timerWasArmed := false }
    | some authPacket =>
      let sent := [SentMsg.version versionPacket, SentMsg.authenticate authPacket]
      match env.race with
      | .timerFired =>
        { clientReturned := false, error := some .timeoutFailure,
          connOpened := true, connClosed := true,
          readLoopStarted := true, pingLoopStarted := true,
          sentMessages := sent, panicked := false,
          timerWasArmed := timerArmed dialer env.start }
      | .connected (.reject r) =>
        { clientReturned := false, error := some (.rejection r),
          connOpened := true, connClosed := true,
          readLoopStarted := true, pingLoopStarted := true,
          sentMessages := sent, panicked := false,
          timerWasArmed := timerArmed dialer env.start }
      | .connected .success =>
        { clientReturned := true, error := none,
          connOpened := true, connClosed := false,
          readLoopStarted := true, pingLoopStarted := true,
          sentMessages := sent, panicked := false,
          timerWasArmed := timerArmed dialer env.start }

/-! ## Read/Dispatch Loop (modelled from the spec) -/

/-- The message classes the Read/Dispatch Loop distinguishes for
connection-state purposes. -/
inductive InMessage where
  | msgSync
  | msgReject (r : RejectError)
  | msgOther
deriving DecidableEq, Repr

/-- Modelled from the spec: the connection-state effect of dispatching one
message in the Read/Dispatch Loop (`readRoutine` and the message handlers
are not part of the sampled source). A server-sync-class message
transitions to `Synced`, a reject-class message to `Disconnected`, any
other message updates bookkeeping only. -/
def dispatchState (s : State) : InMessage → State
  | .msgSync => .StateSynced
  | .msgReject _ => .StateDisconnected
  | .msgOther => s

/-- Modelled from the spec: the one-time signal the Read/Dispatch Loop
sends to the Orchestrator over the `connect` channel — `success` on the
first server-sync-class message, `reject r` on a reject-class message
received before any sync; administrative messages signal nothing. -/
def readLoopSignal : List InMessage → Option ConnectSignal
  | [] => none
  | .msgSync :: _ => some .success
  | .msgReject r :: _ => some (.reject r)
  | .msgOther :: rest => readLoopSignal rest

/-- Modelled from the spec: the sequence of connection states the
Read/Dispatch Loop passes through while processing messages, starting in
`s`, up to and including the message (sync or reject) that produces the
one-time signal. -/
def statesUntilSignal (s : State) : List InMessage → List State
  | [] => []
  | m :: rest =>
    match m with
    | .msgSync => [dispatchState s m]
    | .msgReject _ => [dispatchState s m]
    | .msgOther => dispatchState s m :: statesUntilSignal (dispatchState s m) rest

/-! ## Ping Sample Window (modelled from the spec) -/

/-- The capacity of the ping sample window: the `tcpPingTimes [12]float32`
field of `Client` (client.go line 75). -/
def pingWindowCapacity : Nat := 12

/-- Modelled from the spec: inserting one round-trip sample into the Ping
Sample Window (the ping-statistics update code is not part of the sampled
source) — append the new sample, evicting the oldest when the window is at
capacity (ring-buffer semantics). Samples are exact rationals standing for
the float round-trip times. -/
def insertSample (w : List ℚ) (s : ℚ) : List ℚ :=
  if w.length < pingWindowCapacity then w ++ [s] else w.drop 1 ++ [s]

/-- Folding a sequence of samples into the window in arrival order. -/
def insertSamples (w : List ℚ) (ss : List ℚ) : List ℚ :=
  ss.foldl insertSample w

/-- Modelled from the spec: the published running mean over the window's
current contents. -/
def windowMean (w : List ℚ) : ℚ :=
  w.sum / (w.length : ℚ)

/-! ## Claim theorems -/

/-- If the read loop's one-time signal is a rejection, `StateSynced` never
occurs among the states traversed up to that signal (starting from any
non-`Synced` state). -/
theorem synced_not_reached_of_reject (msgs : List InMessage) (r : RejectError) :
    ∀ s : State, readLoopSignal msgs = some (.reject r) → s ≠ .StateSynced →
      State.StateSynced ∉ statesUntilSignal s msgs := by
  induction msgs with
  | nil =>
    intro s hsig _
    simp [readLoopSignal] at hsig
  | cons m rest ih =>
    intro s hsig hs
    cases m with
    | msgSync => simp [readLoopSignal] at hsig
    | msgReject r' =>
      simp [statesUntilSignal, dispatchState]
    | msgOther =>
      simp only [readLoopSignal] at hsig
      simp only [statesUntilSignal, dispatchState, List.mem_cons]
      rintro (h | h)
      · exact hs h.symm
      · exact ih s hsig hs h

/-- C1: whenever the Read/Dispatch Loop signals a rejection before any
sync message, `DialWithDialer` returns no client together with that
`RejectError` on the connect channel, closes the transport, and the
connection state is never set to `StateSynced` during the attempt. -/
theorem C1_reject_returns_error (dialer : Dialer) (cfg : Config) (env : DialEnv)
    (msgs : List InMessage) (r : RejectError)
    (hdial : env.dialErr = none)
    (hsig : readLoopSignal msgs = some (.reject r))
    (hrace : env.race = .connected (.reject r)) :
    (DialWithDialer dialer (some cfg) env).clientReturned = false ∧
    (DialWithDialer dialer (some cfg) env).error = some (.rejection r) ∧
    (DialWithDialer dialer (some cfg) env).connClosed = true ∧
    State.StateSynced ∉ statesUntilSignal State.StateConnected msgs := by
  refine ⟨?_, ?_, ?_, ?_⟩ <;>
    first
      | simp [DialWithDialer, hdial, hrace, buildAuthenticatePacket]
      | exact synced_not_reached_of_reject msgs r State.StateConnected hsig (by decide)

/-- Witness for C1: one administrative message, then a rejection. -/
theorem C1_reject_returns_error_witness :
    (DialWithDialer ⟨0, 0⟩ (some ⟨"user", "", none, []⟩)
        ⟨none, "linux", "amd64", true, 50,
          .connected (.reject ⟨1, "wrong password"⟩)⟩).clientReturned = false ∧
    (DialWithDialer ⟨0, 0⟩ (some ⟨"user", "", none, []⟩)
        ⟨none, "linux", "amd64", true, 50,
          .connected (.reject ⟨1, "wrong password"⟩)⟩).error =
      some (.rejection ⟨1, "wrong password"⟩) ∧
    (DialWithDialer ⟨0, 0⟩ (some ⟨"user", "", none, []⟩)
        ⟨none, "linux", "amd64", true, 50,
          .connected (.reject ⟨1, "wrong password"⟩)⟩).connClosed = true ∧
    State.StateSynced ∉
      statesUntilSignal State.StateConnected
        [InMessage.msgOther, InMessage.msgReject ⟨1, "wrong password"⟩] :=
  C1_reject_returns_error ⟨0, 0⟩ ⟨"user", "", none, []⟩
    ⟨none, "linux", "amd64", true, 50,
      .connected (.reject ⟨1, "wrong password"⟩)⟩
    [InMessage.msgOther, InMessage.msgReject ⟨1, "wrong password"⟩]
    ⟨1, "wrong password"⟩ rfl (by decide) rfl

/-- C2: the effective deadline is the earliest of the dialer's absolute
`Deadline` and `start + Timeout` (the latter only when `Timeout > 0`);
with neither set, no timer is armed and the `select` can only complete via
the connect channel; and when the timer fires before sync the call closes
the transport and returns no client with a timeout error distinct from
every rejection error. -/
theorem C2_effective_deadline (dialer : Dialer) (cfg : Config) (env : DialEnv)
    (hstart : 0 < env.start) :
    (dialer.Deadline ≠ 0 → dialer.Timeout > 0 →
      computeDeadline dialer env.start =
        min dialer.Deadline (env.start + dialer.Timeout)) ∧
    (dialer.Deadline ≠ 0 → dialer.Timeout ≤ 0 →
      computeDeadline dialer env.start = dialer.Deadline) ∧
    (dialer.Deadline = 0 → dialer.Timeout > 0 →
      computeDeadline dialer env.start = env.start + dialer.Timeout) ∧
    ((dialer.Deadline ≠ 0 ∨ dialer.Timeout > 0) →
      timerArmed dialer env.start = true) ∧
    (dialer.Deadline = 0 → dialer.Timeout ≤ 0 →
      computeDeadline dialer env.start = 0 ∧
      timerArmed dialer env.start = false ∧
      (raceValid dialer env.start env.race → ∃ s, env.race = .connected s)) ∧
    (env.race = .timerFired → env.dialErr = none →
      (DialWithDialer dialer (some cfg) env).clientReturned = false ∧
      (DialWithDialer dialer (some cfg) env).error = some .timeoutFailure ∧
      (DialWithDialer dialer (some cfg) env).connClosed = true ∧
      ∀ r : RejectError, (GErr.timeoutFailure : GErr) ≠ .rejection r) := by
  refine ⟨?_, ?_, ?_, ?_, ?_, ?_⟩
  · intro h1 h2
    rw [min_def]
    simp only [computeDeadline]
    split_ifs <;> omega
  · intro h1 h2
    simp only [computeDeadline]
    split_ifs <;> omega
  · intro h1 h2
    simp only [computeDeadline]
    split_ifs <;> omega
  · intro h
    have hcd : computeDeadline dialer env.start ≠ 0 := by
      simp only [computeDeadline]
      split_ifs <;> omega
    simp [timerArmed, hcd]
  · intro h1 h2
    have hcd : computeDeadline dialer env.start = 0 := by
      simp only [computeDeadline]
      split_ifs <;> omega
    refine ⟨hcd, by simp [timerArmed, hcd], ?_⟩
    intro hvalid
    cases hr : env.race with
    | timerFired =>
      rw [hr] at hvalid
      simp only [raceValid, timerArmed, hcd] at hvalid
      simp at hvalid
    | connected s => exact ⟨s, rfl⟩
  · intro hrace hdial
    refine ⟨?_, ?_, ?_, ?_⟩ <;>
      simp [DialWithDialer, hdial, hrace, buildAuthenticatePacket]

/-- Witness for C2: deadline 100, timeout 5, starting at time 50, timer
fires. -/
theorem C2_effective_deadline_witness :
    ((100 : Int) ≠ 0 → (5 : Int) > 0 →
      computeDeadline ⟨5, 100⟩ 50 = min (100 : Int) (50 + 5)) ∧
    ((100 : Int) ≠ 0 → (5 : Int) ≤ 0 → computeDeadline ⟨5, 100⟩ 50 = 100) ∧
    ((100 : Int) = 0 → (5 : Int) > 0 → computeDeadline ⟨5, 100⟩ 50 = 50 + 5) ∧
    (((100 : Int) ≠ 0 ∨ (5 : Int) > 0) → timerArmed ⟨5, 100⟩ 50 = true) ∧
    ((100 : Int) = 0 → (5 : Int) ≤ 0 →
      computeDeadline ⟨5, 100⟩ 50 = 0 ∧
      timerArmed ⟨5, 100⟩ 50 = false ∧
      (raceValid ⟨5, 100⟩ 50 RaceOutcome.timerFired →
        ∃ s, RaceOutcome.timerFired = RaceOutcome.connected s)) ∧
    (RaceOutcome.timerFired = RaceOutcome.timerFired →
      (none : Option String) = none →
      (DialWithDialer ⟨5, 100⟩ (some ⟨"user", "", none, []⟩)
          ⟨none, "linux", "amd64", true, 50, .timerFired⟩).clientReturned = false ∧
      (DialWithDialer ⟨5, 100⟩ (some ⟨"user", "", none, []⟩)
          ⟨none, "linux", "amd64", true, 50, .timerFired⟩).error =
        some .timeoutFailure ∧
      (DialWithDialer ⟨5, 100⟩ (some ⟨"user", "", none, []⟩)
          ⟨none, "linux", "amd64", true, 50, .timerFired⟩).connClosed = true ∧
      ∀ r : RejectError, (GErr.timeoutFailure : GErr) ≠ .rejection r) :=
  C2_effective_deadline ⟨5, 100⟩ ⟨"user", "", none, []⟩
    ⟨none, "linux", "amd64", true, 50, .timerFired⟩ (by decide)

/-- C3 counterexample: at the point in a connection's lifetime where the
stored state word is `uint32(StateConnected)` — which `DialWithDialer`
stores at client creation (client.go line 131) — `Client.State()` returns
`StateConnected` itself, which is neither `StateDisconnected` nor
`StateSynced`. The accessor performs no collapsing. -/
theorem C3_accessor_returns_connected :
    Client.StateAccessor (State.toUint32 State.StateConnected) =
      State.StateConnected ∧
    State.StateConnected ≠ State.StateDisconnected ∧
    State.StateConnected ≠ State.StateSynced := by
  decide

/-- C3 amended: `Client.State()` returns the stored state verbatim — for
every state `s` stored as `uint32(s)` it returns `s` itself, including the
internal `StateConnected`. `StateConnected` is unobserved by callers only
because no client instance is handed out before the state leaves
`Connected`, not because the accessor collapses it. -/
theorem C3_accessor_verbatim (s : State) :
    Client.StateAccessor s.toUint32 = s := by
  cases s <;> rfl

/-- C5: for every Semver override string that violates a component bound
or is syntactically malformed, with `VersionUint32` unset, the emitted
Version message carries the compiled-in `ClientVersion`, and the
connection attempt proceeds unaffected: no panic, both handshake messages
sent, and a successful sync still returns the client with no error. -/
theorem C5_semver_fallback (dialer : Dialer) (cfg : Config)
    (vo : VersionOverride) (env : DialEnv)
    (hvo : cfg.VersionOverride = some vo)
    (hvu : vo.VersionUint32 = none)
    (hbad : sscanfSemver vo.Semver = none ∨
      ∃ maj mi pat, sscanfSemver vo.Semver = some (maj, mi, pat) ∧
        (maj > 0xFFFF ∨ mi > 0xFF ∨ pat > 0xFF))
    (hdial : env.dialErr = none) :
    (buildVersionPacket env.goos env.goarch (some cfg)).Version = ClientVersion ∧
    (DialWithDialer dialer (some cfg) env).panicked = false ∧
    (DialWithDialer dialer (some cfg) env).sentMessages =
      [SentMsg.version (buildVersionPacket env.goos env.goarch (some cfg)),
       SentMsg.authenticate ⟨cfg.Username, cfg.Password, env.opusAvailable,
         cfg.Tokens⟩] ∧
    (env.race = .connected .success →
      (DialWithDialer dialer (some cfg) env).clientReturned = true ∧
      (DialWithDialer dialer (some cfg) env).error = none) := by
  have hpack : packSemver vo.Semver = none := by
    rcases hbad with h | ⟨maj, mi, pat, hs, hb⟩
    · simp [packSemver, h]
    · simp only [packSemver, hs]
      exact if_pos hb
  have hver : (buildVersionPacket env.goos env.goarch (some cfg)).Version =
      ClientVersion := by
    simp only [buildVersionPacket, hvo, hvu]
    by_cases hs : vo.Semver = ""
    · simp [hs]
    · simp [hs, hpack]
  refine ⟨hver, ?_, ?_, ?_⟩
  · rcases hr : env.race with _ | s
    · simp [DialWithDialer, hdial, hr, buildAuthenticatePacket]
    · rcases s with r | _ <;> simp [DialWithDialer, hdial, hr, buildAuthenticatePacket]
  · rcases hr : env.race with _ | s
    · simp [DialWithDialer, hdial, hr, buildAuthenticatePacket]
    · rcases s with r | _ <;> simp [DialWithDialer, hdial, hr, buildAuthenticatePacket]
  · intro hr
    refine ⟨?_, ?_⟩ <;> simp [DialWithDialer, hdial, hr, buildAuthenticatePacket]

/-- Witness for C5: the out-of-bounds override string "1.256.0". -/
theorem C5_semver_fallback_witness :
    (buildVersionPacket "linux" "amd64"
        (some ⟨"user", "", some ⟨"", "", "", "1.256.0", none⟩, []⟩)).Version =
      ClientVersion ∧
    (DialWithDialer ⟨0, 0⟩
        (some ⟨"user", "", some ⟨"", "", "", "1.256.0", none⟩, []⟩)
        ⟨none, "linux", "amd64", true, 50, .connected .success⟩).panicked = false ∧
    (DialWithDialer ⟨0, 0⟩
        (some ⟨"user", "", some ⟨"", "", "", "1.256.0", none⟩, []⟩)
        ⟨none, "linux", "amd64", true, 50, .connected .success⟩).sentMessages =
      [SentMsg.version (buildVersionPacket "linux" "amd64"
          (some ⟨"user", "", some ⟨"", "", "", "1.256.0", none⟩, []⟩)),
       SentMsg.authenticate ⟨"user", "", true, []⟩] ∧
    (RaceOutcome.connected .success = RaceOutcome.connected .success →
      (DialWithDialer ⟨0, 0⟩
          (some ⟨"user", "", some ⟨"", "", "", "1.256.0", none⟩, []⟩)
          ⟨none, "linux", "amd64", true, 50, .connected .success⟩).clientReturned =
        true ∧
      (DialWithDialer ⟨0, 0⟩
          (some ⟨"user", "", some ⟨"", "", "", "1.256.0", none⟩, []⟩)
          ⟨none, "linux", "amd64", true, 50, .connected .success⟩).error = none) :=
  C5_semver_fallback ⟨0, 0⟩ ⟨"user", "", some ⟨"", "", "", "1.256.0", none⟩, []⟩
    ⟨"", "", "", "1.256.0", none⟩
    ⟨none, "linux", "amd64", true, 50, .connected .success⟩
    rfl rfl
    (Or.inr ⟨1, 256, 0, by decide, by decide⟩)
    rfl

/-- Characterization of the Version packet built under an override record:
every field is resolved independently from its own override field. -/
theorem buildVersionPacket_override (goos goarch : String) (cfg : Config)
    (vo : VersionOverride) (hvo : cfg.VersionOverride = some vo) :
    buildVersionPacket goos goarch (some cfg) =
      ⟨(match vo.VersionUint32 with
        | some v => v
        | none =>
          if vo.Semver ≠ "" then
            match packSemver vo.Semver with
            | some packed => packed
            | none => ClientVersion
          else ClientVersion),
       (if vo.Release ≠ "" then vo.Release else "gumble"),
       (if vo.OS ≠ "" then vo.OS else goos),
       (if vo.OSVersion ≠ "" then vo.OSVersion else goarch)⟩ := by
  simp only [buildVersionPacket, hvo]

/-- C6: the Version message fields are resolved independently per override
field — a non-empty `Release`/`OS`/`OSVersion` replaces only that field;
the version word uses `VersionUint32` verbatim when non-nil, else the
packed Semver, else `ClientVersion`; and with only `OS` set the emitted
message is the overridden `Os` with default `Release`, `OsVersion` and
`Version`. -/
theorem C6_version_override_per_field (goos goarch : String) (cfg : Config)
    (vo : VersionOverride) (hvo : cfg.VersionOverride = some vo) :
    (buildVersionPacket goos goarch (some cfg)).Release =
      (if vo.Release ≠ "" then vo.Release else "gumble") ∧
    (buildVersionPacket goos goarch (some cfg)).Os =
      (if vo.OS ≠ "" then vo.OS else goos) ∧
    (buildVersionPacket goos goarch (some cfg)).OsVersion =
      (if vo.OSVersion ≠ "" then vo.OSVersion else goarch) ∧
    (∀ v, vo.VersionUint32 = some v →
      (buildVersionPacket goos goarch (some cfg)).Version = v) ∧
    (∀ p, vo.VersionUint32 = none → packSemver vo.Semver = some p →
      (buildVersionPacket goos goarch (some cfg)).Version = p) ∧
    (vo.VersionUint32 = none → packSemver vo.Semver = none →
      (buildVersionPacket goos goarch (some cfg)).Version = ClientVersion) ∧
    (vo.Release = "" → vo.OS ≠ "" → vo.OSVersion = "" → vo.Semver = "" →
      vo.VersionUint32 = none →
      buildVersionPacket goos goarch (some cfg) =
        ⟨ClientVersion, "gumble", vo.OS, goarch⟩) := by
  rw [buildVersionPacket_override goos goarch cfg vo hvo]
  refine ⟨rfl, rfl, rfl, ?_, ?_, ?_, ?_⟩
  · intro v hv
    simp [hv]
  · intro p hnone hp
    have hne : vo.Semver ≠ "" := by
      intro h
      rw [h] at hp
      simp [packSemver, sscanfSemver, scanUint32, skipSpaces, takeDigits] at hp
    simp [hnone, hne, hp]
  · intro hnone hp
    by_cases hs : vo.Semver = "" <;> simp [hnone, hs, hp]
  · intro h1 h2 h3 h4 h5
    simp [h1, h2, h3, h4, h5]

/-- Witness for C6: an override that sets only `OS` to "windows". -/
theorem C6_version_override_per_field_witness :
    (buildVersionPacket "linux" "amd64"
        (some ⟨"user", "", some ⟨"", "windows", "", "", none⟩, []⟩)).Release =
      (if ("" : String) ≠ "" then "" else "gumble") ∧
    (buildVersionPacket "linux" "amd64"
        (some ⟨"user", "", some ⟨"", "windows", "", "", none⟩, []⟩)).Os =
      (if ("windows" : String) ≠ "" then "windows" else "linux") ∧
    (buildVersionPacket "linux" "amd64"
        (some ⟨"user", "", some ⟨"", "windows", "", "", none⟩, []⟩)).OsVersion =
      (if ("" : String) ≠ "" then "" else "amd64") ∧
    (∀ v, (none : Option Nat) = some v →
      (buildVersionPacket "linux" "amd64"
          (some ⟨"user", "", some ⟨"", "windows", "", "", none⟩, []⟩)).Version = v) ∧
    (∀ p, (none : Option Nat) = none → packSemver "" = some p →
      (buildVersionPacket "linux" "amd64"
          (some ⟨"user", "", some ⟨"", "windows", "", "", none⟩, []⟩)).Version = p) ∧
    ((none : Option Nat) = none → packSemver "" = none →
      (buildVersionPacket "linux" "amd64"
          (some ⟨"user", "", some ⟨"", "windows", "", "", none⟩, []⟩)).Version =
        ClientVersion) ∧
    (("" : String) = "" → ("windows" : String) ≠ "" → ("" : String) = "" →
      ("" : String) = "" → (none : Option Nat) = none →
      buildVersionPacket "linux" "amd64"
          (some ⟨"user", "", some ⟨"", "windows", "", "", none⟩, []⟩) =
        ⟨ClientVersion, "gumble", "windows", "amd64"⟩) :=
  C6_version_override_per_field "linux" "amd64"
    ⟨"user", "", some ⟨"", "windows", "", "", none⟩, []⟩
    ⟨"", "windows", "", "", none⟩ rfl

/-- Capacity invariant of the ping window: inserting any sequence of
samples into a window holding at most 12 leaves at most 12. -/
theorem insertSamples_length_le (ss : List ℚ) :
    ∀ w : List ℚ, w.length ≤ 12 → (insertSamples w ss).length ≤ 12 := by
  induction ss with
  | nil =>
    intro w hw
    simpa [insertSamples] using hw
  | cons x rest ih =>
    intro w hw
    have hstep : (insertSample w x).length ≤ 12 := by
      simp only [insertSample, pingWindowCapacity]
      split_ifs with h
      · simp
        omega
      · simp [List.length_drop]
        omega
    have hfold : insertSamples w (x :: rest) =
        insertSamples (insertSample w x) rest := rfl
    rw [hfold]
    exact ih _ hstep

/-- C7: the Ping Sample Window holds at most 12 samples at all times;
after inserting `s1..s15` in order into the empty window, the window is
exactly `[s4, ..., s15]` and the published mean is the arithmetic mean of
those 12 samples. -/
theorem C7_ping_window_ring (w ss : List ℚ)
    (s1 s2 s3 s4 s5 s6 s7 s8 s9 s10 s11 s12 s13 s14 s15 : ℚ)
    (hw : w.length ≤ 12) :
    (insertSamples w ss).length ≤ 12 ∧
    insertSamples []
        [s1, s2, s3, s4, s5, s6, s7, s8, s9, s10, s11, s12, s13, s14, s15] =
      [s4, s5, s6, s7, s8, s9, s10, s11, s12, s13, s14, s15] ∧
    windowMean (insertSamples []
        [s1, s2, s3, s4, s5, s6, s7, s8, s9, s10, s11, s12, s13, s14, s15]) =
      (s4 + s5 + s6 + s7 + s8 + s9 + s10 + s11 + s12 + s13 + s14 + s15) / 12 := by
  have hfold : insertSamples []
      [s1, s2, s3, s4, s5, s6, s7, s8, s9, s10, s11, s12, s13, s14, s15] =
      [s4, s5, s6, s7, s8, s9, s10, s11, s12, s13, s14, s15] := by
    simp [insertSamples, insertSample, pingWindowCapacity]
  refine ⟨insertSamples_length_le ss w hw, hfold, ?_⟩
  rw [hfold]
  simp [windowMean]
  ring

/-- Witness for C7: the samples 1..15. -/
theorem C7_ping_window_ring_witness :
    (insertSamples [] []).length ≤ 12 ∧
    insertSamples []
        [(1 : ℚ), 2, 3, 4, 5, 6, 7, 8, 9, 10, 11, 12, 13, 14, 15] =
      [4, 5, 6, 7, 8, 9, 10, 11, 12, 13, 14, 15] ∧
    windowMean (insertSamples []
        [(1 : ℚ), 2, 3, 4, 5, 6, 7, 8, 9, 10, 11, 12, 13, 14, 15]) =
      ((4 : ℚ) + 5 + 6 + 7 + 8 + 9 + 10 + 11 + 12 + 13 + 14 + 15) / 12 :=
  C7_ping_window_ring [] [] 1 2 3 4 5 6 7 8 9 10 11 12 13 14 15 (by decide)

/-- C8: a transport-open failure is returned synchronously: no client, the
dial error itself, no read loop, no ping loop, and no handshake message
written. -/
theorem C8_dial_failure_synchronous (dialer : Dialer) (config : Option Config)
    (env : DialEnv) (msg : String) (hdial : env.dialErr = some msg) :
    (DialWithDialer dialer config env).clientReturned = false ∧
    (DialWithDialer dialer config env).error = some (.dialFailure msg) ∧
    (DialWithDialer dialer config env).readLoopStarted = false ∧
    (DialWithDialer dialer config env).pingLoopStarted = false ∧
    (DialWithDialer dialer config env).sentMessages = [] := by
  refine ⟨?_, ?_, ?_, ?_, ?_⟩ <;> simp [DialWithDialer, hdial]

/-- Witness for C8: a failing dial. -/
theorem C8_dial_failure_synchronous_witness :
    (DialWithDialer ⟨0, 0⟩ (some ⟨"user", "", none, []⟩)
        ⟨some "connection refused", "linux", "amd64", true, 50,
          .connected .success⟩).clientReturned = false ∧
    (DialWithDialer ⟨0, 0⟩ (some ⟨"user", "", none, []⟩)
        ⟨some "connection refused", "linux", "amd64", true, 50,
          .connected .success⟩).error =
      some (.dialFailure "connection refused") ∧
    (DialWithDialer ⟨0, 0⟩ (some ⟨"user", "", none, []⟩)
        ⟨some "connection refused", "linux", "amd64", true, 50,
          .connected .success⟩).readLoopStarted = false ∧
    (DialWithDialer ⟨0, 0⟩ (some ⟨"user", "", none, []⟩)
        ⟨some "connection refused", "linux", "amd64", true, 50,
          .connected .success⟩).pingLoopStarted = false ∧
    (DialWithDialer ⟨0, 0⟩ (some ⟨"user", "", none, []⟩)
        ⟨some "connection refused", "linux", "amd64", true, 50,
          .connected .success⟩).sentMessages = [] :=
  C8_dial_failure_synchronous ⟨0, 0⟩ (some ⟨"user", "", none, []⟩)
    ⟨some "connection refused", "linux", "amd64", true, 50, .connected .success⟩
    "connection refused" rfl

/-- C9: in every attempt that reaches the handshake, the Version message
is written before the Authenticate message, and the Authenticate message
carries exactly the configured username, password, the Opus
codec-capability flag, and the token list verbatim. -/
theorem C9_handshake_order (dialer : Dialer) (cfg : Config) (env : DialEnv)
    (hdial : env.dialErr = none) :
    (DialWithDialer dialer (some cfg) env).sentMessages =
      [SentMsg.version (buildVersionPacket env.goos env.goarch (some cfg)),
       SentMsg.authenticate ⟨cfg.Username, cfg.Password, env.opusAvailable,
         cfg.Tokens⟩] := by
  rcases hr : env.race with _ | s
  · simp [DialWithDialer, hdial, hr, buildAuthenticatePacket]
  · rcases s with r | _ <;> simp [DialWithDialer, hdial, hr, buildAuthenticatePacket]

/-- Witness for C9: a config with username, password and two tokens. -/
theorem C9_handshake_order_witness :
    (DialWithDialer ⟨0, 0⟩ (some ⟨"alice", "hunter2", none, ["t1", "t2"]⟩)
        ⟨none, "linux", "amd64", true, 50, .connected .success⟩).sentMessages =
      [SentMsg.version (buildVersionPacket "linux" "amd64"
          (some ⟨"alice", "hunter2", none, ["t1", "t2"]⟩)),
       SentMsg.authenticate ⟨"alice", "hunter2", true, ["t1", "t2"]⟩] :=
  C9_handshake_order ⟨0, 0⟩ ⟨"alice", "hunter2", none, ["t1", "t2"]⟩
    ⟨none, "linux", "amd64", true, 50, .connected .success⟩ rfl

/-- C10: `DialWithDialer` has the unstated precondition `config != nil`:
the Version-packet construction is nil-guarded and yields the defaults,
but the Authenticate construction dereferences the nil config, so the call
panics after the transport was opened instead of returning an error. -/
theorem C10_nil_config_panics (dialer : Dialer) (env : DialEnv)
    (hdial : env.dialErr = none) :
    (DialWithDialer dialer none env).panicked = true ∧
    (DialWithDialer dialer none env).connOpened = true ∧
    (DialWithDialer dialer none env).error = none ∧
    (DialWithDialer dialer none env).clientReturned = false ∧
    buildAuthenticatePacket none env.opusAvailable = none ∧
    buildVersionPacket env.goos env.goarch none =
      ⟨ClientVersion, "gumble", env.goos, env.goarch⟩ := by
  refine ⟨?_, ?_, ?_, ?_, ?_, ?_⟩ <;>
    simp [DialWithDialer, hdial, buildAuthenticatePacket, buildVersionPacket]

/-- Witness for C10: a nil config with a successful dial. -/
theorem C10_nil_config_panics_witness :
    (DialWithDialer ⟨0, 0⟩ none
        ⟨none, "linux", "amd64", true, 50, .connected .success⟩).panicked = true ∧
    (DialWithDialer ⟨0, 0⟩ none
        ⟨none, "linux", "amd64", true, 50, .connected .success⟩).connOpened = true ∧
    (DialWithDialer ⟨0, 0⟩ none
        ⟨none, "linux", "amd64", true, 50, .connected .success⟩).error = none ∧
    (DialWithDialer ⟨0, 0⟩ none
        ⟨none, "linux", "amd64", true, 50, .connected .success⟩).clientReturned =
      false ∧
    buildAuthenticatePacket none true = none ∧
    buildVersionPacket "linux" "amd64" none =
      ⟨ClientVersion, "gumble", "linux", "amd64"⟩ :=
  C10_nil_config_panics ⟨0, 0⟩
    ⟨none, "linux", "amd64", true, 50, .connected .success⟩ rfl
